import Mathlib

/-!
# Verification of the Chem-Det-Scraper enrichment pipeline

Shallow embedding of `src/Chem-Det-Scraper.py`: the resumable, concurrent
chemical-record enrichment pipeline.  Python values that may be `None`/NaN are
modelled as `Option`; machine integers in the script are plain Python ints, so
they are embedded as `Nat`; the side-effecting pieces (network calls, thread
scheduling, file system) are parameters of the embedded functions (a lookup
result is an `Option SourceRecord` argument, the thread pool's completion order
is an explicit list of positions).
-/

namespace ChemDetScraper

/-! ## Resume-point determination (`main`, lines 144-148)

```
start_index = CUSTOM_START_INDEX if CUSTOM_START_INDEX is not None else 0
if os.path.exists(PROGRESS_FILE):
    with open(PROGRESS_FILE) as f:
        progress = json.load(f)
        start_index = progress.get("last_row", start_index)
```

`custom_start_index` embeds `CUSTOM_START_INDEX` (`Option Nat`: `none` is the
Python `None`).  `progress_file : Option (Option Nat)` embeds the checkpoint
file: `none` means the file does not exist, `some none` means it exists but has
no `"last_row"` key, `some (some v)` means it holds `{"last_row": v}`. -/

def resolve_start_index (custom_start_index : Option Nat)
    (progress_file : Option (Option Nat)) : Nat :=
  let start_index := match custom_start_index with
    | some v => v
    | none => 0
  match progress_file with
  | none => start_index
  | some last_row =>
    match last_row with
    | some v => v
    | none => start_index

/-! ## Retry wrapper (`retry`, lines 29-46)

```
def retry(max_attempts=3, delay=2, backoff=2):
    def decorator(func):
        def wrapper(*args, **kwargs):
            attempts = 0
            current_delay = delay
            while attempts < max_attempts:
                try:
                    return func(*args, **kwargs)
                except Exception as e:
                    attempts += 1
                    time.sleep(current_delay)
                    current_delay *= backoff
            return None
        return wrapper
    return decorator
```

The wrapped operation is embedded as `op : Nat → Option α`: `op k` is the
outcome of the `k`-th call of `func` (`none` = the call raised).  The `while`
loop is embedded with the remaining attempt budget `max_attempts - attempts`
as structural fuel, so `retryLoop op backoff fuel attempts current_delay`
is the loop body entered with those variable values.  The result pairs the
returned value with the list of delays slept (one sleep per failed attempt,
in order). -/

def retryLoop {α : Type} (op : Nat → Option α) (backoff : Nat) :
    Nat → Nat → Nat → Option α × List Nat
  | 0, _, _ => (none, [])
  | fuel + 1, attempts, current_delay =>
    match op attempts with
    | some v => (some v, [])
    | none =>
      let rest := retryLoop op backoff fuel (attempts + 1) (current_delay * backoff)
      (rest.1, current_delay :: rest.2)

def retry {α : Type} (max_attempts delay backoff : Nat) (op : Nat → Option α) :
    Option α × List Nat :=
  retryLoop op backoff max_attempts 0 delay

/-- An operation that raises on its first `f` calls and then returns `v`
forever: the shape of operation quantified over in the retry-wrapper claim. -/
def failsThenSucceeds {α : Type} (f : Nat) (v : α) : Nat → Option α :=
  fun k => if k < f then none else some v

theorem retryLoop_failsThenSucceeds {α : Type} (f : Nat) (v : α) (B : Nat) :
    ∀ (fuel a d : Nat), a ≤ f →
      retryLoop (failsThenSucceeds f v) B fuel a d =
        if a + fuel ≤ f then (none, (List.range fuel).map fun i => d * B ^ i)
        else (some v, (List.range (f - a)).map fun i => d * B ^ i) := by
  intro fuel
  induction fuel with
  | zero =>
    intro a d ha
    simp [retryLoop, ha]
  | succ fuel ih =>
    intro a d ha
    by_cases hlt : a < f
    · have hstep : failsThenSucceeds f v a = none := by
        simp [failsThenSucceeds, hlt]
      have ha1 : a + 1 ≤ f := hlt
      rw [retryLoop, hstep]
      rw [ih (a + 1) (d * B) ha1]
      by_cases hcond : a + (fuel + 1) ≤ f
      · have hcond' : a + 1 + fuel ≤ f := by omega
        simp only [hcond, hcond', if_pos]
        refine congrArg (Prod.mk none) ?_
        rw [List.range_succ_eq_map, List.map_cons, List.map_map]
        refine congrArg₂ List.cons (by simp) ?_
        refine List.map_congr_left ?_
        intro i _
        simp [Function.comp, pow_succ]
        ring
      · have hcond' : ¬ (a + 1 + fuel ≤ f) := by omega
        simp only [hcond, hcond', if_neg, not_false_iff]
        refine congrArg (Prod.mk (some v)) ?_
        have hfa : f - a = (f - (a + 1)) + 1 := by omega
        rw [hfa, List.range_succ_eq_map, List.map_cons, List.map_map]
        refine congrArg₂ List.cons (by simp) ?_
        refine List.map_congr_left ?_
        intro i _
        simp [Function.comp, pow_succ]
        ring
    · have haf : a = f := by omega
      have hstep : failsThenSucceeds f v a = some v := by
        simp [failsThenSucceeds, hlt]
      rw [retryLoop, hstep]
      have hcond : ¬ (a + (fuel + 1) ≤ f) := by omega
      simp [hcond, haf]

/-! ## Classifier (`guess_general_category`, lines 49-73)

```
def guess_general_category(chemical_name):
    if not chemical_name or pd.isna(chemical_name):
        return "Impurity"
    name = str(chemical_name).lower()
    category_map = { ... }
    for category, keywords in category_map.items():
        for kw in keywords:
            if kw in name:
                return category
    return "Impurity"
```

A Python 3.7+ dict iterates in insertion order, so `category_map` is embedded
as an ordered association list.  Missing input (`None`/NaN, caught by
`pd.isna`) is `none`; `not chemical_name` additionally catches the empty
string.  Python's substring test `kw in name` is embedded character-list-wise
below. -/

def startsWithChars : List Char → List Char → Bool
  | [], _ => true
  | _ :: _, [] => false
  | a :: as, b :: bs => a == b && startsWithChars as bs

/-- Python's `sub in s` contiguous-substring test, over the character lists. -/
def listContainsSub (sub : List Char) : List Char → Bool
  | [] => startsWithChars sub []
  | c :: rest => startsWithChars sub (c :: rest) || listContainsSub sub rest

def strContains (s sub : String) : Bool :=
  listContainsSub sub.data s.data

/-- Python's `str.lower()` (the names involved are ASCII). -/
def pyLower (s : String) : String :=
  ⟨s.data.map Char.toLower⟩

def category_map : List (String × List String) :=
  [("Heterocyclic", ["triazole", "pyrazole", "imidazole", "thiazole", "oxazole",
                     "pyridine", "quinoline", "isoquinoline", "indole", "pyrimidine",
                     "piperidine", "piperazine", "morpholine", "azetidine"]),
   ("Aromatic", ["benzene", "phenyl", "toluene", "naphthalene", "aromatic", "indole"]),
   ("Aliphatic", ["methyl", "ethyl", "propyl", "butyl", "pentyl", "hexyl", "cycloalkyl"]),
   ("Halogenated", ["chloro", "fluoro", "bromo", "iodo", "halide"]),
   ("Nitrogen-Containing", ["amine", "amino", "urea", "azide", "azo", "nitrile", "hydrazine"]),
   ("Oxygen-Containing", ["alcohol", "ether", "aldehyde", "ketone", "acid", "ester", "anhydride"]),
   ("Sulfur-Containing", ["thiol", "thio", "sulfonamide", "thiazole", "sulfide"]),
   ("Phosphorus-Containing", ["phosphate", "phosphonate", "phosphine"]),
   ("Steroidal", ["steroid", "estradiol", "testosterone", "corticosteroid"])]

/-- The nested `for category, keywords / for kw / return category` loops:
return the first category whose keyword list has a substring match, else fall
through to `"Impurity"`. -/
def categoryLookup (name : String) : List (String × List String) → String
  | [] => "Impurity"
  | (category, keywords) :: rest =>
    if keywords.any (fun kw => strContains name kw) then category
    else categoryLookup name rest

def guess_general_category (chemical_name : Option String) : String :=
  match chemical_name with
  | none => "Impurity"
  | some s =>
    if s = "" then "Impurity"
    else categoryLookup (pyLower s) category_map

theorem categoryLookup_eq_find? (name : String) :
    ∀ l : List (String × List String),
      categoryLookup name l =
        ((l.find? fun p => p.2.any fun kw => strContains name kw).map Prod.fst).getD
          "Impurity" := by
  intro l
  induction l with
  | nil => simp [categoryLookup]
  | cons p rest ih =>
    obtain ⟨category, keywords⟩ := p
    by_cases h : keywords.any (fun kw => strContains name kw)
    · simp [categoryLookup, List.find?_cons, h]
    · rw [categoryLookup, if_neg (by simpa using h), ih, List.find?_cons]
      simp only [h]

theorem categoryLookup_mem (name : String) :
    ∀ l : List (String × List String),
      categoryLookup name l ∈ "Impurity" :: l.map Prod.fst := by
  intro l
  induction l with
  | nil => simp [categoryLookup]
  | cons p rest ih =>
    obtain ⟨category, keywords⟩ := p
    by_cases h : keywords.any (fun kw => strContains name kw)
    · simp [categoryLookup, h]
    · rw [categoryLookup, if_neg (by simpa using h)]
      rcases List.mem_cons.mp ih with h' | h'
      · exact List.mem_cons.mpr (Or.inl h')
      · exact List.mem_cons.mpr (Or.inr (List.mem_cons.mpr (Or.inr h')))

/-! ## Decimal rendering and `zfill` (`process_row`, line 127)

`f"S1-{str(index+1).zfill(4)}"`: `str` of a non-negative Python int is its
decimal digit string; `.zfill(4)` left-pads with `'0'` to width 4 (and is the
identity on longer strings). -/

def digitChar (d : Nat) : Char :=
  match d with
  | 0 => '0' | 1 => '1' | 2 => '2' | 3 => '3' | 4 => '4'
  | 5 => '5' | 6 => '6' | 7 => '7' | 8 => '8' | _ => '9'

/-- `fuel`-structured decimal digits of `n` (most significant first); any
`fuel > n` suffices because `n / 10 < n` for `n ≥ 10`. -/
def toDecimalDigitsAux : Nat → Nat → List Char
  | 0, _ => []
  | fuel + 1, n =>
    if n < 10 then [digitChar n]
    else toDecimalDigitsAux fuel (n / 10) ++ [digitChar (n % 10)]

/-- Python's `str(n)` for a non-negative int `n`. -/
def decimalRepr (n : Nat) : String :=
  ⟨toDecimalDigitsAux (n + 1) n⟩

/-- Python's `str.zfill(width)` on digit strings (no sign handling needed). -/
def zfill (width : Nat) (s : String) : String :=
  ⟨List.replicate (width - s.data.length) '0' ++ s.data⟩

/-- Numeric value of a digit character (`0` on non-digits); used only to
invert `decimalRepr`. -/
def charVal (c : Char) : Nat :=
  match c with
  | '0' => 0 | '1' => 1 | '2' => 2 | '3' => 3 | '4' => 4
  | '5' => 5 | '6' => 6 | '7' => 7 | '8' => 8 | '9' => 9
  | _ => 0

/-- The number denoted by a digit list (most significant first). -/
def digitsVal (l : List Char) : Nat :=
  l.foldl (fun a c => a * 10 + charVal c) 0

theorem charVal_digitChar (d : Nat) (h : d < 10) : charVal (digitChar d) = d := by
  interval_cases d <;> rfl

theorem digitsVal_append_singleton (l : List Char) (c : Char) :
    digitsVal (l ++ [c]) = digitsVal l * 10 + charVal c := by
  simp [digitsVal, List.foldl_append]

theorem digitsVal_toDecimalDigitsAux :
    ∀ fuel n, n < fuel → digitsVal (toDecimalDigitsAux fuel n) = n := by
  intro fuel
  induction fuel with
  | zero => omega
  | succ fuel ih =>
    intro n hn
    by_cases h : n < 10
    · simp [toDecimalDigitsAux, h, digitsVal, charVal_digitChar n h]
    · have hdiv : n / 10 < fuel := by
        have h1 : n / 10 < n := Nat.div_lt_self (by omega) (by omega)
        omega
      rw [toDecimalDigitsAux, if_neg h, digitsVal_append_singleton, ih _ hdiv,
        charVal_digitChar _ (Nat.mod_lt _ (by omega))]
      omega

theorem digitsVal_decimalRepr (n : Nat) : digitsVal (decimalRepr n).data = n :=
  digitsVal_toDecimalDigitsAux (n + 1) n (Nat.lt_succ_self n)

theorem digitsVal_replicate_zero (k : Nat) (l : List Char) :
    digitsVal (List.replicate k '0' ++ l) = digitsVal l := by
  induction k with
  | zero => simp
  | succ k ih =>
    rw [List.replicate_succ, List.cons_append]
    simpa [digitsVal, charVal] using ih

theorem digitsVal_zfill (w n : Nat) :
    digitsVal (zfill w (decimalRepr n)).data = n := by
  rw [zfill]
  rw [show (⟨List.replicate (w - (decimalRepr n).data.length) '0' ++
      (decimalRepr n).data⟩ : String).data = List.replicate
      (w - (decimalRepr n).data.length) '0' ++ (decimalRepr n).data from rfl]
  rw [digitsVal_replicate_zero, digitsVal_decimalRepr]

/-! ## Primary chemistry-database adapter (`fetch_pubchem`, lines 75-105)

```
formula, weight, appearance = "", "", ""
for prop in compound.get("props", []):
    label = prop.get("urn", {}).get("label", "")
    val = prop.get("value", {})
    sval, fval = val.get("sval"), val.get("fval")
    if label == "Molecular Formula" and sval:
        formula = sval
    elif label == "Molecular Weight":
        weight = sval or str(fval)
    elif label == "Appearance" and sval:
        appearance = sval
```

A property entry carries an optional string value `sval` and an optional
numeric value `fval`; `fval` is embedded as the string `str` renders it to
(the code only ever uses `str(fval)`), with `none` for an absent key (Python
`str(None) = "None"`).  Python truthiness of an optional string: `None` and
`""` are falsy. -/

structure PCProp where
  label : String
  sval : Option String
  fval : Option String
deriving DecidableEq

def pyTruthy : Option String → Bool
  | none => false
  | some s => s ≠ ""

/-- Python `str(x)` for an optional value already rendered as a string. -/
def pyStr : Option String → String
  | none => "None"
  | some s => s

/-- Python `sval or str(fval)`. -/
def svalOrFval (sval fval : Option String) : String :=
  if pyTruthy sval then pyStr sval else pyStr fval

structure Extracted where
  formula : String
  weight : String
  appearance : String
deriving DecidableEq

/-- One iteration of the `for prop in props` loop body. -/
def propStep (acc : Extracted) (p : PCProp) : Extracted :=
  if (p.label == "Molecular Formula") && pyTruthy p.sval then
    { acc with formula := pyStr p.sval }
  else if p.label == "Molecular Weight" then
    { acc with weight := svalOrFval p.sval p.fval }
  else if (p.label == "Appearance") && pyTruthy p.sval then
    { acc with appearance := pyStr p.sval }
  else acc

/-- The whole property loop, started from `formula = weight = appearance = ""`. -/
def extractProps (props : List PCProp) : Extracted :=
  props.foldl propStep ⟨"", "", ""⟩

structure SourceRecord where
  chemicalName : String
  molecularFormula : String
  molecularWeight : String
  appearance : String
deriving DecidableEq

/-- The successful branch of `fetch_pubchem` after the HTTP/JSON handling:
`name = ids.get("name", cas)` plus the property-loop extraction.  (The
network call itself and the raising branches are outside the embedding; a
run's lookup outcome enters `process_row` as an `Option SourceRecord`.) -/
def fetch_pubchem_parse (cas : String) (name : Option String)
    (props : List PCProp) : SourceRecord :=
  let e := extractProps props
  { chemicalName := name.getD cas
    molecularFormula := e.formula
    molecularWeight := e.weight
    appearance := e.appearance }

/-! ## Record assembler (`process_row`, lines 119-138)

```
def generate_applications(name):
    return "Used in chemical synthesis, pharmaceutical or industrial research."

def process_row(index, cas, chemical_name):
    pubchem_data = fetch_pubchem(cas) or {"Chemical Name": cas,
        "Molecular Formula": "", "Molecular Weight": "", "Appearance": ""}
    category = guess_general_category(chemical_name)
    return { ...the 11 output columns... }
```

`chemical_name` comes from a spreadsheet cell, so it may be NaN: `Option
String` (`none` = NaN).  The retried network lookup is the function's only
effect, so its outcome is passed in as `pubchem_result : Option SourceRecord`
(`none` = all retries exhausted, the decorator returned `None`). -/

structure OutputRecord where
  productCode : String
  chemicalName : Option String
  casNo : String
  synonyms : Option String
  molecularFormula : String
  molecularWeight : String
  appearance : String
  storage : String
  shippingConditions : String
  applications : String
  category : String
deriving DecidableEq

def generate_applications (_name : Option String) : String :=
  "Used in chemical synthesis, pharmaceutical or industrial research."

def process_row (index : Nat) (cas : String) (chemical_name : Option String)
    (pubchem_result : Option SourceRecord) : OutputRecord :=
  let pubchem_data := match pubchem_result with
    | some r => r
    | none =>
      { chemicalName := cas, molecularFormula := "", molecularWeight := "",
        appearance := "" }
  let category := guess_general_category chemical_name
  { productCode := "S1-" ++ zfill 4 (decimalRepr (index + 1))
    chemicalName := chemical_name
    casNo := cas
    synonyms := chemical_name
    molecularFormula := pubchem_data.molecularFormula
    molecularWeight := pubchem_data.molecularWeight
    appearance := pubchem_data.appearance
    storage := "2-8°C Refrigerator"
    shippingConditions := "Ambient"
    applications := generate_applications chemical_name
    category := category }

/-! ## Input-table reading (`main`, lines 141-142 and 156-159)

```
cas_list = input_df["CAS No"].dropna().astype(str).tolist()
...
cas = cas_list[i].strip()
chemical_name_row = input_df.loc[
    input_df["CAS No"].astype(str).str.strip() == cas, "Chemical Name"]
chemical_name = chemical_name_row.values[0] if not chemical_name_row.empty else cas
```

A row of the input table is a pair of optional cells (`none` = NaN).
`dropna` removes only the missing cells; `astype(str)` on a whole column
renders NaN as the string `"nan"` (`pyStrCell`).  `.values[0]` of the `loc`
filter is the first row whose stringified, stripped CAS cell equals `cas`. -/

structure InputRow where
  casNo : Option String
  chemicalName : Option String
deriving DecidableEq

/-- pandas `astype(str)` on one cell: NaN renders as `"nan"`. -/
def pyStrCell : Option String → String
  | none => "nan"
  | some s => s

/-- Python's `str.strip()`: drop whitespace from both ends. -/
def pyStrip (s : String) : String :=
  ⟨((s.data.dropWhile Char.isWhitespace).reverse.dropWhile Char.isWhitespace).reverse⟩

/-- Line 142: `input_df["CAS No"].dropna().astype(str).tolist()`. -/
def cas_list (input : List InputRow) : List String :=
  input.filterMap (fun row => row.casNo)

/-- Lines 158-159: the declared chemical name used for the work item whose
(stripped) identifier is `cas`: the `Chemical Name` cell of the first input
row whose stringified, stripped CAS cell equals `cas`, else `cas` itself. -/
def declaredName (input : List InputRow) (cas : String) : Option String :=
  match input.find? (fun row => pyStrip (pyStrCell row.casNo) == cas) with
  | some row => row.chemicalName
  | none => some cas

/-! ## Completion draining and periodic flush (`main`, lines 150-173)

```
output_data = []  # seeded from the existing output file if present
...
for count, future in enumerate(as_completed(futures), start=start_index + 1):
    result = future.result()
    output_data.append(result)
    if count % SAVE_EVERY_N_ROWS == 0:
        pd.DataFrame(output_data).to_excel(OUTPUT_FILE, index=False)
        with open(PROGRESS_FILE, "w") as f:
            json.dump({"last_row": count}, f)

pd.DataFrame(output_data).to_excel(OUTPUT_FILE, index=False)
with open(PROGRESS_FILE, "w") as f:
    json.dump({"last_row": len(cas_list)}, f)
```

`as_completed` yields the futures in completion order, which depends on
thread scheduling; it is passed in as the explicit list of the completed
records.  `drainLoop K count output rest` is the loop entered with enumerate
counter at `count` (the counter starts at `start_index`, the first completion
gets `count + 1`); it returns the final accumulator together with the list of
mid-run flushes, each recorded as (accumulator snapshot, checkpoint saved). -/

def drainLoop {α : Type} (K : Nat) : Nat → List α → List α → List α × List (List α × Nat)
  | _, output, [] => (output, [])
  | count, output, x :: xs =>
    let output' := output ++ [x]
    let count' := count + 1
    let rest := drainLoop K count' output' xs
    if count' % K = 0 then (rest.1, (output', count') :: rest.2)
    else (rest.1, rest.2)

structure RunResult (α : Type) where
  midFlushes : List (List α × Nat)
  finalOutput : List α
  finalCheckpoint : Nat
deriving DecidableEq

/-- One pipeline run at the orchestration level: flush interval `K`, resume
point `r` (the `start_index`), `n` identifiers in `cas_list`, accumulator
seeded with `seed` (the pre-existing output rows), `records p` the
`OutputRecord` produced for submitted position `p`, and `order` the positions
in completion order.  Returns the mid-run flushes, the final accumulator
written by the final flush, and the final checkpoint `len(cas_list)`. -/
def runPipeline {α : Type} (K r n : Nat) (seed : List α) (records : Nat → α)
    (order : List Nat) : RunResult α :=
  let completions := order.map records
  let p := drainLoop K r seed completions
  { midFlushes := p.2, finalOutput := p.1, finalCheckpoint := n }

theorem drainLoop_fst {α : Type} (K : Nat) :
    ∀ (completions : List α) (count : Nat) (output : List α),
      (drainLoop K count output completions).1 = output ++ completions := by
  intro completions
  induction completions with
  | nil => intro count output; simp [drainLoop]
  | cons x xs ih =>
    intro count output
    rw [drainLoop]
    by_cases h : (count + 1) % K = 0 <;> simp [h, ih (count + 1) (output ++ [x])]

theorem drainLoop_snd {α : Type} (K : Nat) :
    ∀ (completions : List α) (count : Nat) (output : List α),
      (drainLoop K count output completions).2 =
        (List.range completions.length).filterMap fun i =>
          if (count + (i + 1)) % K = 0 then
            some (output ++ completions.take (i + 1), count + (i + 1))
          else none := by
  intro completions
  induction completions with
  | nil => intro count output; simp [drainLoop]
  | cons x xs ih =>
    intro count output
    rw [drainLoop]
    have hrec := ih (count + 1) (output ++ [x])
    rw [List.length_cons, List.range_succ_eq_map, List.filterMap_cons,
      List.filterMap_map]
    have hfun :
        ((fun i =>
            if (count + (i + 1)) % K = 0 then
              some (output ++ (x :: xs).take (i + 1), count + (i + 1))
            else none) ∘ Nat.succ) =
          fun i =>
            if (count + 1 + (i + 1)) % K = 0 then
              some ((output ++ [x]) ++ xs.take (i + 1), count + 1 + (i + 1))
            else none := by
      funext i
      have h1 : count + (i + 1 + 1) = count + 1 + (i + 1) := by omega
      simp only [Function.comp, Nat.succ_eq_add_one, h1, List.take_succ_cons,
        List.append_assoc, List.singleton_append]
    rw [hfun, ← hrec]
    by_cases h : (count + 1) % K = 0
    · have h0 : (count + (0 + 1)) % K = 0 := by simpa using h
      simp only [h, if_pos, h0]
      simp
    · have h0 : ¬ ((count + (0 + 1)) % K = 0) := by simpa using h
      simp only [h, if_neg, h0]
      simp [h0]

/-! ## Claim theorems -/

/-- Claim C1 (code bug).  The claim says a configured override start position
takes precedence over the persisted checkpoint.  The source's own comment on
`CUSTOM_START_INDEX` ("Set to an integer to override resume progress") states
the same intent, but lines 144-148 do the opposite: whenever the progress file
exists and has a `"last_row"` key, the checkpoint value replaces the configured
override.  Failing input: `CUSTOM_START_INDEX = 2800` (the value in the
source) with a progress file holding `{"last_row": 100}` — the run starts at
100, not 2800; in general the checkpoint always wins. -/
theorem C1_resume_divergence :
    resolve_start_index (some 2800) (some (some 100)) = 100 ∧
    resolve_start_index (some 2800) (some (some 100)) ≠ 2800 ∧
    ∀ override v : Nat, resolve_start_index (some override) (some (some v)) = v :=
  ⟨rfl, by decide, fun override v => rfl⟩

/-- Helper predicates: the three `elif` guards of the `fetch_pubchem` property
loop, as predicates on one property entry. -/
def isFormulaProp (p : PCProp) : Bool :=
  (p.label == "Molecular Formula") && pyTruthy p.sval

def isWeightProp (p : PCProp) : Bool :=
  p.label == "Molecular Weight"

def isAppearanceProp (p : PCProp) : Bool :=
  (p.label == "Appearance") && pyTruthy p.sval

theorem propStep_formula (acc : Extracted) (p : PCProp) :
    (propStep acc p).formula =
      if isFormulaProp p then pyStr p.sval else acc.formula := by
  simp only [propStep, isFormulaProp]
  split_ifs <;> rfl

theorem propStep_weight (acc : Extracted) (p : PCProp) :
    (propStep acc p).weight =
      if isWeightProp p then svalOrFval p.sval p.fval else acc.weight := by
  simp only [propStep, isWeightProp]
  split_ifs with h1 h2 h2 h3 <;> try rfl
  · exfalso
    have hl1 : p.label = "Molecular Formula" :=
      eq_of_beq ((Bool.and_eq_true _ _).mp h1).1
    have hl2 : p.label = "Molecular Weight" := eq_of_beq h2
    rw [hl1] at hl2
    exact absurd hl2 (by decide)

theorem propStep_appearance (acc : Extracted) (p : PCProp) :
    (propStep acc p).appearance =
      if isAppearanceProp p then pyStr p.sval else acc.appearance := by
  simp only [propStep, isAppearanceProp]
  split_ifs with h1 h2 h2 h3 <;> try rfl
  · exfalso
    have hl1 : p.label = "Molecular Formula" :=
      eq_of_beq ((Bool.and_eq_true _ _).mp h1).1
    have hl2 : p.label = "Appearance" :=
      eq_of_beq ((Bool.and_eq_true _ _).mp h2).1
    rw [hl1] at hl2
    exact absurd hl2 (by decide)
  · exfalso
    have hl1 : p.label = "Molecular Weight" := eq_of_beq h2
    have hl2 : p.label = "Appearance" :=
      eq_of_beq ((Bool.and_eq_true _ _).mp h3).1
    rw [hl1] at hl2
    exact absurd hl2 (by decide)

theorem foldl_propStep_field (get : Extracted → String) (cond : PCProp → Bool)
    (val : PCProp → String)
    (hstep : ∀ acc p, get (propStep acc p) = if cond p then val p else get acc) :
    ∀ (props : List PCProp) (acc : Extracted),
      get (props.foldl propStep acc) =
        ((props.reverse.find? cond).map val).getD (get acc) := by
  intro props
  induction props with
  | nil => intro acc; simp
  | cons p ps ih =>
    intro acc
    rw [List.foldl_cons, ih, List.reverse_cons, List.find?_append]
    cases hfind : ps.reverse.find? cond with
    | some q => rw [Option.or_some]; simp
    | none =>
      rw [Option.none_or, List.find?_singleton]
      cases hc : cond p with
      | true => simp [hstep, hc]
      | false => simp [hstep, hc]

/-- Claim C2, counterexample.  The claim says the first entry with a given
label wins and later duplicates never replace it.  On the code, with two
`"Molecular Formula"` entries carrying `sval` values `"C6H6"` then `"CH4"`,
the extracted formula is `"CH4"` — the later entry overwrote the earlier one
(the loop has no break and assigns unconditionally). -/
theorem C2_counterexample :
    (extractProps
        [⟨"Molecular Formula", some "C6H6", none⟩,
         ⟨"Molecular Formula", some "CH4", none⟩]).formula = "CH4" ∧
    ("CH4" : String) ≠ "C6H6" :=
  ⟨rfl, by decide⟩

/-- Claim C2, amended.  When the returned compound's property list contains
multiple entries matching the same label, the value extracted is the one from
the LAST matching entry in list order (each matching entry overwrites the
previous value): the extracted formula/weight/appearance is the value of the
last entry satisfying the respective guard (for formula and appearance the
guard also requires a truthy `sval`; for weight every `"Molecular Weight"`
entry counts, its value being `sval or str(fval)`), or `""` if none
matches. -/
theorem C2_amended_last_match_wins (props : List PCProp) :
    (extractProps props).formula =
      ((props.reverse.find? isFormulaProp).map fun p => pyStr p.sval).getD "" ∧
    (extractProps props).weight =
      ((props.reverse.find? isWeightProp).map fun p =>
        svalOrFval p.sval p.fval).getD "" ∧
    (extractProps props).appearance =
      ((props.reverse.find? isAppearanceProp).map fun p => pyStr p.sval).getD "" :=
  ⟨foldl_propStep_field Extracted.formula isFormulaProp
      (fun p => pyStr p.sval) propStep_formula props ⟨"", "", ""⟩,
   foldl_propStep_field Extracted.weight isWeightProp
      (fun p => svalOrFval p.sval p.fval) propStep_weight props ⟨"", "", ""⟩,
   foldl_propStep_field Extracted.appearance isAppearanceProp
      (fun p => pyStr p.sval) propStep_appearance props ⟨"", "", ""⟩⟩

/-- Claim C5 (confirmed).  For an operation that fails exactly `f` times and
then succeeds with `v`, and attempt budget `N`: if `N ≥ f + 1` the wrapper
returns `some v`, and if `N ≤ f` it returns the sentinel `none` (never an
exception); the successive delays slept are `D, D*B, D*B², …` — one sleep per
failed attempt, so the delay slept between consecutive attempts starts at `D`
and is multiplied by `B` after each failure. -/
theorem C5_retry_contract {α : Type} (f N D B : Nat) (v : α) :
    (f < N →
      retry N D B (failsThenSucceeds f v) =
        (some v, (List.range f).map fun i => D * B ^ i)) ∧
    (N ≤ f →
      retry N D B (failsThenSucceeds f v) =
        (none, (List.range N).map fun i => D * B ^ i)) := by
  constructor
  · intro h
    rw [retry, retryLoop_failsThenSucceeds f v B N 0 D (Nat.zero_le f)]
    rw [if_neg (show ¬ (0 + N ≤ f) by omega)]
    simp
  · intro h
    rw [retry, retryLoop_failsThenSucceeds f v B N 0 D (Nat.zero_le f)]
    rw [if_pos (show 0 + N ≤ f by omega)]

/-- Witness for C5: `f = 2` failures, budget `N = 3`, `D = B = 2` returns the
success value having slept 2 then 4 (the spec's example), and budget `N = 2`
against 3 failures returns the sentinel. -/
theorem C5_retry_witness :
    retry 3 2 2 (failsThenSucceeds 2 (7 : Nat)) = (some 7, [2, 4]) ∧
    retry 2 2 2 (failsThenSucceeds 3 (7 : Nat)) = (none, [2, 4]) :=
  ⟨((C5_retry_contract 2 3 2 2 (7 : Nat)).1 (by decide)).trans (by decide),
   ((C5_retry_contract 3 2 2 2 (7 : Nat)).2 (by decide)).trans (by decide)⟩

/-- Claim C3, counterexample.  The claim says a mid-run flush occurs exactly
when the number of completions SINCE THE RESUME POINT is a multiple of `K`.
On the code the flush test is `count % K == 0` with `count = start_index +
completions`, an absolute count.  With resume point `r = 1`, flush interval
`K = 2` and two identifiers completing in order, the single mid-run flush
happens after 1 completion since resume (snapshot holds 1 record) — and 1 is
not a multiple of 2. -/
theorem C3_counterexample :
    (runPipeline 2 1 3 ([] : List Nat) (fun i => i) [1, 2]).midFlushes =
      [([1], 2)] ∧
    ¬ (2 ∣ ([1] : List Nat).length) := by
  decide

/-- Claim C3, amended.  A mid-run flush occurs exactly after those completions
at which `r` plus the number of completions so far (the absolute enumerate
counter, which starts at `r + 1`) is a multiple of `K` — not when the count
of completions since resume is a multiple of `K`; at each such flush the full
accumulator so far is written and the checkpoint saved is `r` plus the number
of completions so far.  After all work drains, the final flush writes the
full accumulator and saves checkpoint equal to the total identifier count. -/
theorem C3_amended_flush_schedule {α : Type} (K r n : Nat) (seed : List α)
    (records : Nat → α) (order : List Nat) :
    (runPipeline K r n seed records order).finalOutput =
      seed ++ order.map records ∧
    (runPipeline K r n seed records order).finalCheckpoint = n ∧
    (runPipeline K r n seed records order).midFlushes =
      (List.range order.length).filterMap fun i =>
        if (r + (i + 1)) % K = 0 then
          some (seed ++ (order.map records).take (i + 1), r + (i + 1))
        else none := by
  refine ⟨?_, rfl, ?_⟩
  · exact drainLoop_fst K (order.map records) r seed
  · rw [show (runPipeline K r n seed records order).midFlushes =
        (drainLoop K r seed (order.map records)).2 from rfl]
    rw [drainLoop_snd K (order.map records) r seed]
    rw [List.length_map]

/-- Claim C4 (confirmed).  With completion order B, A, C (positions 1, 0, 2 —
a permutation of the submitted positions, in which a later-submitted position
completes first) and flush interval 1, there is a mid-run flush whose saved
checkpoint strictly exceeds submitted position 0 while position 0's
OutputRecord is not in the flushed accumulator; a resume from that checkpoint
processes only positions `checkpoint..2`, so it would never process position
0.  Hence it is not an invariant that every position below the checkpoint has
its record in the flushed output. -/
theorem C4_checkpoint_skips_position :
    List.Perm [1, 0, 2] (List.range' 0 3) ∧
    ∃ flush ∈ (runPipeline 1 0 3 ([] : List OutputRecord)
        (fun p => process_row p "cas" none none) [1, 0, 2]).midFlushes,
      ∃ p ∈ List.range' 0 3,
        p < flush.2 ∧
        process_row p "cas" none none ∉ flush.1 ∧
        p ∉ List.range' flush.2 (3 - flush.2) := by
  refine ⟨by decide, ⟨([process_row 1 "cas" none none], 1), ?_, 0, ?_, ?_, ?_, ?_⟩⟩
  · decide
  · decide
  · decide
  · decide
  · decide

/-- Claim C6 (confirmed).  The classifier is total and deterministic: every
input (missing, empty, or any string) yields exactly one category from the
fixed set `{Impurity} ∪ dom(category_map)`; a missing or empty name yields
`"Impurity"`; otherwise the result is the first category in the mapping's
defined order that has any keyword occurring as a substring of the lowercased
name, defaulting to `"Impurity"` when no keyword of any category matches. -/
theorem C6_classifier_total_first_match (nm : Option String) :
    guess_general_category nm ∈ "Impurity" :: category_map.map Prod.fst ∧
    guess_general_category none = "Impurity" ∧
    guess_general_category (some "") = "Impurity" ∧
    ∀ s : String, s ≠ "" →
      guess_general_category (some s) =
        ((category_map.find? fun p =>
            p.2.any fun kw => strContains (pyLower s) kw).map Prod.fst).getD
          "Impurity" := by
  refine ⟨?_, rfl, by decide, ?_⟩
  · cases nm with
    | none => exact List.mem_cons_self _ _
    | some s =>
      by_cases h : s = ""
      · rw [h, show guess_general_category (some "") = "Impurity" from by decide]
        exact List.mem_cons_self _ _
      · rw [guess_general_category, if_neg h]
        exact categoryLookup_mem (pyLower s) category_map
  · intro s hs
    rw [guess_general_category, if_neg hs, categoryLookup_eq_find?]

/-- Witness for C6: the non-empty name `"Benzene"` (uppercase, exercising the
lowercasing) is classified by the first-match rule, concretely to
`"Aromatic"`. -/
theorem C6_classifier_witness :
    guess_general_category (some "Benzene") =
      ((category_map.find? fun p =>
          p.2.any fun kw => strContains (pyLower "Benzene") kw).map Prod.fst).getD
        "Impurity" ∧
    guess_general_category (some "Benzene") = "Aromatic" :=
  ⟨(C6_classifier_total_first_match (some "Benzene")).2.2.2 "Benzene" (by decide),
   by decide⟩

/-- Claim C7, counterexample.  The claim says the OutputRecord produced after
the primary lookup exhausts all retries "has the identifier as name".  On the
code the record's Chemical Name field is always the declared name passed in:
with identifier `"50-00-0"` and declared name `"formaldehyde"`, the record's
name is `"formaldehyde"`, not the identifier (the identifier is used as name
only inside the substituted empty lookup dict, whose name entry is never
consumed). -/
theorem C7_counterexample :
    (process_row 0 "50-00-0" (some "formaldehyde") none).chemicalName =
      some "formaldehyde" ∧
    (some "formaldehyde" : Option String) ≠ some "50-00-0" :=
  ⟨rfl, by decide⟩

/-- Claim C7, amended.  For every (position, identifier, declared-name) input
whose primary lookup exhausts all retries (lookup outcome `none`), the Record
Assembler still returns exactly one OutputRecord (it is a total function, it
cannot raise) whose Chemical Name is the DECLARED name, with empty molecular
formula, weight and appearance fields, and whose category is computed by the
classifier from the declared chemical name — and the category is independent
of lookup success. -/
theorem C7_amended_soft_failure (i : Nat) (cas : String) (nm : Option String) :
    (process_row i cas nm none).chemicalName = nm ∧
    (process_row i cas nm none).molecularFormula = "" ∧
    (process_row i cas nm none).molecularWeight = "" ∧
    (process_row i cas nm none).appearance = "" ∧
    (process_row i cas nm none).category = guess_general_category nm ∧
    ∀ r : Option SourceRecord,
      (process_row i cas nm r).category = guess_general_category nm :=
  ⟨rfl, rfl, rfl, rfl, rfl, fun _ => rfl⟩

/-- Claim C8 (confirmed).  Every assembled OutputRecord's product code is
non-empty and equals `"S1-"` followed by the 1-indexed row position
zero-padded to 4 digits; the digits after the `"S1-"` head decode back to
the 1-indexed position, so product codes are unique (equal codes force equal
positions) and follow input row order. -/
theorem C8_product_code (i : Nat) (cas : String) (nm : Option String)
    (r : Option SourceRecord) :
    (process_row i cas nm r).productCode =
      "S1-" ++ zfill 4 (decimalRepr (i + 1)) ∧
    (process_row i cas nm r).productCode ≠ "" ∧
    digitsVal ((process_row i cas nm r).productCode.data.drop 3) = i + 1 ∧
    ∀ (j : Nat) (cas' : String) (nm' : Option String) (r' : Option SourceRecord),
      (process_row j cas' nm' r').productCode =
        (process_row i cas nm r).productCode → j = i := by
  have hdata : ∀ k : Nat,
      ("S1-" ++ zfill 4 (decimalRepr (k + 1))).data =
        'S' :: '1' :: '-' :: (zfill 4 (decimalRepr (k + 1))).data := by
    intro k
    rw [String.data_append]
    rfl
  refine ⟨rfl, ?_, ?_, ?_⟩
  · intro h
    have hd := congrArg String.data h
    rw [show (process_row i cas nm r).productCode =
        "S1-" ++ zfill 4 (decimalRepr (i + 1)) from rfl, hdata i] at hd
    exact absurd hd (by simp [String.data])
  · rw [show (process_row i cas nm r).productCode =
        "S1-" ++ zfill 4 (decimalRepr (i + 1)) from rfl, hdata i]
    rw [show ('S' :: '1' :: '-' :: (zfill 4 (decimalRepr (i + 1))).data).drop 3 =
        (zfill 4 (decimalRepr (i + 1))).data from rfl]
    exact digitsVal_zfill 4 (i + 1)
  · intro j cas' nm' r' h
    have hd := congrArg String.data h
    rw [show (process_row i cas nm r).productCode =
        "S1-" ++ zfill 4 (decimalRepr (i + 1)) from rfl,
      show (process_row j cas' nm' r').productCode =
        "S1-" ++ zfill 4 (decimalRepr (j + 1)) from rfl, hdata i, hdata j] at hd
    have hz : (zfill 4 (decimalRepr (j + 1))).data =
        (zfill 4 (decimalRepr (i + 1))).data := by
      injection hd with _ hd'
      injection hd' with _ hd''
      injection hd'' with _ hd'''
    have hv := congrArg digitsVal hz
    rw [digitsVal_zfill, digitsVal_zfill] at hv
    omega

/-- Witness for C8: two records assembled at the same position 5 (with
different identifiers) have equal product codes, so the uniqueness conjunct
applies and yields `5 = 5`; concretely the code at position 5 is
`"S1-0006"`. -/
theorem C8_product_code_witness :
    (5 : Nat) = 5 ∧ (process_row 5 "a" none none).productCode = "S1-0006" :=
  ⟨(C8_product_code 5 "a" none none).2.2.2 5 "b" none none rfl, by decide⟩

/-- Claim C9, counterexample.  The claim says CAS values that are missing OR
blank (empty/whitespace-only) are dropped before processing.  On the code
only missing (NaN) values are dropped — `dropna()` keeps blank strings: an
input whose only CAS cell is the whitespace string `"   "` yields a work list
of length 1, not 0. -/
theorem C9_counterexample :
    cas_list [⟨some "   ", some "X"⟩] = ["   "] ∧
    (["   "] : List String) ≠ [] :=
  ⟨rfl, by decide⟩

/-- Claim C9, amended.  Only CAS values that are missing (null) are dropped
from the work list before processing; blank (empty or whitespace-only) string
values are kept as work items.  CAS cell values are stringified and
string-trimmed when matching the declared chemical name row: the declared
name is the Chemical Name cell of the first row whose stringified, stripped
CAS cell equals the stripped identifier, defaulting to the identifier itself
when no row matches. -/
theorem C9_amended_filtering (input : List InputRow) :
    (cas_list input =
      (input.filter fun row => row.casNo.isSome).map fun row => row.casNo.getD "") ∧
    (∀ row ∈ input, ∀ s, row.casNo = some s → s ∈ cas_list input) ∧
    (∀ cas row,
      input.find? (fun row => pyStrip (pyStrCell row.casNo) == cas) = some row →
      declaredName input cas = row.chemicalName) ∧
    (∀ cas,
      input.find? (fun row => pyStrip (pyStrCell row.casNo) == cas) = none →
      declaredName input cas = some cas) := by
  refine ⟨?_, ?_, ?_, ?_⟩
  · induction input with
    | nil => rfl
    | cons row rest ih =>
      simp only [cas_list] at ih
      cases h : row.casNo with
      | none => simp [cas_list, List.filterMap_cons, h, ih, List.filter_cons]
      | some s => simp [cas_list, List.filterMap_cons, h, ih, List.filter_cons]
  · intro row hrow s hs
    exact List.mem_filterMap.mpr ⟨row, hrow, by rw [hs]⟩
  · intro cas row hfind
    rw [declaredName, hfind]
  · intro cas hfind
    rw [declaredName, hfind]

/-- Witness for C9: a one-row input whose CAS cell is `" 50-00-0 "` (padded
with spaces): the raw value enters the work list, and the trimmed identifier
`"50-00-0"` matches the row (stripped comparison), yielding its declared name
`"F"`; an unmatched identifier falls back to itself. -/
theorem C9_amended_witness :
    " 50-00-0 " ∈ cas_list [(⟨some " 50-00-0 ", some "F"⟩ : InputRow)] ∧
    declaredName [(⟨some " 50-00-0 ", some "F"⟩ : InputRow)] "50-00-0" =
      some "F" ∧
    declaredName [(⟨some " 50-00-0 ", some "F"⟩ : InputRow)] "zzz" =
      some "zzz" :=
  ⟨(C9_amended_filtering _).2.1 ⟨some " 50-00-0 ", some "F"⟩ (by decide)
      " 50-00-0 " rfl,
   (C9_amended_filtering _).2.2.1 "50-00-0" ⟨some " 50-00-0 ", some "F"⟩
      (by decide),
   (C9_amended_filtering _).2.2.2 "zzz" (by decide)⟩

/-- Claim C10 (confirmed).  In every OutputRecord produced by the Record
Assembler, the Synonyms field is identical to the Chemical Name field (both
are the declared name passed in), and the canonical name returned by the
primary lookup is never used: changing the lookup result's name field leaves
the assembled record unchanged. -/
theorem C10_synonyms_and_lookup_name_unused (i : Nat) (cas : String)
    (nm : Option String) (src : SourceRecord) (altName : String) :
    (process_row i cas nm (some src)).synonyms =
      (process_row i cas nm (some src)).chemicalName ∧
    (process_row i cas nm (some src)).chemicalName = nm ∧
    (process_row i cas nm none).synonyms =
      (process_row i cas nm none).chemicalName ∧
    process_row i cas nm (some { src with chemicalName := altName }) =
      process_row i cas nm (some src) :=
  ⟨rfl, rfl, rfl, rfl⟩

end ChemDetScraper
